import Mathlib

/-!
Shallow embedding of `scripts/setup_gcp.py` (oak-disperser GCP bootstrap
helper) and proofs about its naming, selection and sequencing logic.

Conventions of the embedding:
* Python strings are modelled as `String` / `List Char`; `str.lower` is
  modelled by `Char.toLower` (ASCII case mapping, which is what every
  identifier handled by the script consists of).
* Subprocess calls are modelled by their observable interface: a describe
  call is represented by its return code (`Int`), mutating provider calls
  by an emitted `Event` plus a success oracle, interactive prompts by a
  scripted list of operator answers.
* `re.sub` with the patterns used by the script (`[^a-z0-9-]+`, `-+`,
  `[^a-zA-Z0-9 -]`, `\s+`) is modelled by direct recursive functions that
  replace each maximal run of matching characters, exactly as the regexes
  do.
-/

namespace SetupGcp

/-- Characters allowed by the character class `[a-z0-9-]` used in
`sanitize_base` (`re.sub(r"[^a-z0-9-]+", "-", ...)`): lowercase ASCII
letters (97..122), digits (48..57) and the hyphen. -/
def isAllowed (c : Char) : Bool :=
  (decide (97 ≤ c.toNat) && decide (c.toNat ≤ 122)) ||
    (decide (48 ≤ c.toNat) && decide (c.toNat ≤ 57)) || c == '-'

/-- Model of `re.sub(r"[^a-z0-9-]+", "-", s)`: every maximal run of
characters outside `[a-z0-9-]` is replaced by a single hyphen.  The flag
records whether the previous character was part of such a run (in which
case the replacement hyphen has already been emitted). -/
def subBadAux : Bool → List Char → List Char
  | _, [] => []
  | inBad, c :: cs =>
    if isAllowed c then c :: subBadAux false cs
    else if inBad then subBadAux true cs
    else '-' :: subBadAux true cs

/-- Replace every maximal run of disallowed characters by one hyphen. -/
def subBadRuns (l : List Char) : List Char := subBadAux false l

/-- Model of Python `str.strip("-")`: remove all leading and trailing
hyphens. -/
def stripHyphens (l : List Char) : List Char :=
  ((l.dropWhile (fun c => c == '-')).reverse.dropWhile (fun c => c == '-')).reverse

/-- Model of `re.sub(r"-+", "-", s)`: collapse each maximal run of hyphens
to a single hyphen.  The flag records whether the previous character was a
hyphen (so the single replacement hyphen has already been emitted). -/
def collapseAux : Bool → List Char → List Char
  | _, [] => []
  | prevHyp, c :: cs =>
    if c == '-' then
      if prevHyp then collapseAux true cs
      else '-' :: collapseAux true cs
    else c :: collapseAux false cs

/-- Collapse repeated hyphens to single hyphens. -/
def collapseHyphens (l : List Char) : List Char := collapseAux false l

/-- Model of Python `str.strip()`: remove leading and trailing
whitespace. -/
def stripWs (l : List Char) : List Char :=
  ((l.dropWhile Char.isWhitespace).reverse.dropWhile Char.isWhitespace).reverse

/-- Python `str.strip()` on a `String`. -/
def pyStrip (s : String) : String := String.mk (stripWs s.data)

/-- Value of Python `int` on a string of decimal digits. -/
def parseNatDigits (l : List Char) : Nat :=
  l.foldl (fun n c => n * 10 + (c.toNat - 48)) 0

/-- Model of Python `s.split("/")[-1]`: the part of the string after its
last slash (the whole string when it has no slash). -/
def lastSlashComponent (l : List Char) : List Char :=
  (l.reverse.takeWhile (fun c => !(c == '/'))).reverse

/-- The `cleaned` value computed by `sanitize_base` (setup_gcp.py:55-56):
`cleaned = re.sub(r"[^a-z0-9-]+", "-", value.lower()).strip("-")`,
`cleaned = re.sub(r"-+", "-", cleaned)`. -/
def sanitizeCleaned (value : String) : List Char :=
  collapseHyphens (stripHyphens (subBadRuns (value.data.map Char.toLower)))

/-- Embedding of `sanitize_base` (setup_gcp.py:54-57):
`return cleaned or "oak-disperser"` (the empty string is falsy in Python,
so the fallback fires exactly when `cleaned` is empty). -/
def sanitize_base (value : String) : String :=
  if (sanitizeCleaned value).isEmpty then "oak-disperser"
  else String.mk (sanitizeCleaned value)

/-- Decimal digit characters of a natural number, the model of Python
`str(suffix)`.  Structured with explicit fuel (first argument) so that it
is structurally recursive; `natChars` supplies fuel `n + 1`, which always
suffices because a number `n` has at most `n + 1` decimal digits. -/
def natCharsAux : Nat → Nat → List Char
  | 0, _ => []
  | fuel + 1, n =>
    if n < 10 then [Nat.digitChar n]
    else natCharsAux fuel (n / 10) ++ [Nat.digitChar (n % 10)]

/-- Decimal representation of `n`, as the list of its digit characters. -/
def natChars (n : Nat) : List Char := natCharsAux (n + 1) n

/-- Python slice `l[:j]` for a possibly negative bound `j`: a negative
bound counts from the end of the list (and clamps at zero). -/
def pySliceTo (l : List Char) (j : Int) : List Char :=
  if 0 ≤ j then l.take j.toNat else l.take (l.length - (-j).toNat)

/-- The fixed domain suffix token `"-oak-disperser"` appended by
`generate_project_id`. -/
def domainTok : List Char := "-oak-disperser".data

/-- Embedding of `project_exists` (setup_gcp.py:75-79): runs
`gcloud projects describe` and reports existence exactly when the
describe call's return code is zero; every non-zero return code (genuine
absence, auth failure, network error, ...) is reported as "does not
exist" and never as an error. -/
def project_exists (describeReturncode : Int) : Bool :=
  describeReturncode == 0

/-- The padding step of `generate_project_id` (setup_gcp.py:62-63):
`if len(sanitized) < 6: sanitized = (sanitized + "oak")[:10]`. -/
def pad10 (s0 : List Char) : List Char :=
  if s0.length < 6 then (s0 ++ "oak".data).take 10 else s0

/-- The suffixing step of `generate_project_id` (setup_gcp.py:64-65):
append `"-oak-disperser"` unless it is already a suffix. -/
def withDomainTok (s1 : List Char) : List Char :=
  if domainTok.isSuffixOf s1 then s1 else s1 ++ domainTok

/-- The sanitized-padded-suffixed base computed by the first three lines
of `generate_project_id` (setup_gcp.py:61-65). -/
def paddedSanitized (base_name : String) : List Char :=
  withDomainTok (pad10 (sanitize_base base_name).data)

/-- The collision candidate `f"{sanitized[:30-len(str(suffix))-1]}-{suffix}"`
built in the retry loop of `generate_project_id` (setup_gcp.py:69). -/
def candidateId (sanitized : List Char) (suffix : Nat) : List Char :=
  pySliceTo sanitized ((30 : Int) - (natChars suffix).length - 1) ++ '-' :: natChars suffix

/-- The `while project_exists(project_id)` retry loop of
`generate_project_id` (setup_gcp.py:67-71).  `rcs` is the list of
successive `gcloud projects describe` return codes observed by the
probes; the loop exits at the first non-success return code.  (If the
scripted return codes run out the current identifier is returned; the
source would instead keep probing, so claims about the loop always
either supply a non-success answer or constrain the leading successes.) -/
def genLoop (sanitized : List Char) : List Char → Nat → List Int → List Char
  | pid, _, [] => pid
  | pid, suffix, rc :: rest =>
    if project_exists rc then genLoop sanitized (candidateId sanitized suffix) (suffix + 1) rest
    else pid

/-- Embedding of `generate_project_id` (setup_gcp.py:60-72), parametrised
by the describe return codes `rcs` consumed by its existence probes. -/
def generate_project_id (rcs : List Int) (base_name : String) : String :=
  let sanitized := paddedSanitized base_name
  String.mk (genLoop sanitized (sanitized.take 30) 1 rcs)

/-- One entry of the JSON array returned by
`gcloud billing accounts list --format=json`.  `accountId` and `name` are
`none` when the corresponding field is missing from the JSON object (the
script reads them with `entry.get(...)`); `isOpen` is the truthiness of
the `open` field; `displayName` is only ever printed. -/
structure BillingAccount where
  accountId : Option String
  name : Option String
  isOpen : Bool
  displayName : String
deriving DecidableEq

/-- Python truthiness of a possibly missing string field: a missing field
and the empty string are both falsy. -/
def truthyStr (o : Option String) : Bool :=
  match o with
  | none => false
  | some s => !(s == "")

/-- Embedding of the nested `account_id` helper of
`select_billing_account` (setup_gcp.py:98-103): prefer a truthy
`accountId` field, else the last `/`-separated component of a truthy
`name` field, else `None`. -/
def account_id (entry : BillingAccount) : Option String :=
  if truthyStr entry.accountId then entry.accountId
  else if truthyStr entry.name then some (String.mk (lastSlashComponent (entry.name.getD "").data))
  else none

/-- The candidate list used for selection (setup_gcp.py:105-107): filter
to accounts whose `open` flag is truthy, falling back to the unfiltered
list when the filter empties it. -/
def openCandidates (accounts : List BillingAccount) : List BillingAccount :=
  let opens := accounts.filter (fun a => a.isOpen)
  if opens.isEmpty then accounts else opens

/-- The `while True` prompt loop of `select_billing_account`
(setup_gcp.py:122-131) over the scripted operator answers `inputs`.
`some r` means the loop returned `r`; `none` means the scripted answers
ran out, modelling the source blocking forever on `input()`. -/
def promptLoop (opens : List BillingAccount) : List String → Option (Option String)
  | [] => none
  | c :: rest =>
    let choice := pyStrip c
    if choice == "" then some none
    else if choice.data.all Char.isDigit then
      let n := parseNatDigits choice.data
      if n == 0 then promptLoop opens rest
      else
        match opens.get? (n - 1) with
        | some acc => some (account_id acc)
        | none => promptLoop opens rest
    else promptLoop opens rest

/-- The selection logic of `select_billing_account` once a listing has
been obtained (setup_gcp.py:94-131): empty listing means skip; exactly
one candidate auto-selects (yielding `None` when it has no id); more
candidates enter the prompt loop. -/
def selectFromAccounts (accounts : List BillingAccount) (inputs : List String) :
    Option (Option String) :=
  if accounts.isEmpty then some none
  else
    match openCandidates accounts with
    | [acc] =>
      if truthyStr (account_id acc) then some (account_id acc) else some none
    | opens => promptLoop opens inputs

/-- Embedding of `select_billing_account` (setup_gcp.py:82-131).
`listing` is `none` when the `gcloud billing accounts list` call (or its
JSON parse) raises, `some accounts` otherwise; `inputs` are the scripted
operator answers.  The outer `Option` distinguishes returning (`some`)
from blocking forever on exhausted scripted input (`none`); the inner
`Option String` is the Python return value. -/
def select_billing_account (force_id : Option String)
    (listing : Option (List BillingAccount)) (inputs : List String) :
    Option (Option String) :=
  if truthyStr force_id then some force_id
  else
    match listing with
    | none => some none
    | some accounts => selectFromAccounts accounts inputs

/-- The ResourceName invariant stated by the specification's data model:
non-empty, at most 30 characters, only lowercase letters, digits and
hyphens, never starting or ending with a hyphen, and no repeated
hyphens. -/
def noRepeatHyphen : List Char → Bool
  | [] => true
  | [_] => true
  | a :: b :: t => !(a == '-' && b == '-') && noRepeatHyphen (b :: t)

/-- Decidable form of the spec's ResourceName invariant for a character
list. -/
def isResourceName (l : List Char) : Bool :=
  !l.isEmpty && decide (l.length ≤ 30) && l.all isAllowed &&
    !(l.head? == some '-') && !(l.getLast? == some '-') && noRepeatHyphen l

/-- Observable provider/secret-store calls issued by the script.  Each
mutating subprocess invocation is recorded as one event. -/
inductive Event where
  | createProject (id displayName : String)
  | linkBilling (id billing : String)
  | enableService (id service : String)
  | createTopic (id topic : String)
  | createServiceAccount (id saId displayName : String)
  | grantRole (id member role : String)
  | createKey (email path : String)
  | secretSet (name value : String)
deriving DecidableEq

/-- Is this event a service-account key export call? -/
def Event.isCreateKey : Event → Bool
  | .createKey _ _ => true
  | _ => false

/-- Is this event a CI secret upload call? -/
def Event.isSecretSet : Event → Bool
  | .secretSet _ _ => true
  | _ => false

/-- Embedding of `create_project` (setup_gcp.py:140-143).  `ok` is the
success oracle for provider calls; a failing call still appears in the
trace (the subprocess was launched) and aborts with the `run` helper's
error.  The 5-second propagation sleep has no observable effect here. -/
def create_project (ok : Event → Bool) (project_id display_name : String) :
    List Event × Option String :=
  let e := Event.createProject project_id display_name
  ([e], if ok e then none else some "Command failed")

/-- Embedding of `link_billing` (setup_gcp.py:134-137); returns without a
call when `billing_id` is falsy. -/
def link_billing (ok : Event → Bool) (project_id billing_id : String) :
    List Event × Option String :=
  if billing_id == "" then ([], none)
  else
    let e := Event.linkBilling project_id billing_id
    ([e], if ok e then none else some "Command failed")

/-- Embedding of `enable_services` (setup_gcp.py:146-148): enable each
service in order, aborting at the first failing call. -/
def enable_services (ok : Event → Bool) (project_id : String) :
    List String → List Event × Option String
  | [] => ([], none)
  | s :: rest =>
    let e := Event.enableService project_id s
    if ok e then
      let t := enable_services ok project_id rest
      (e :: t.1, t.2)
    else ([e], some "Command failed")

/-- Embedding of `ensure_topic` (setup_gcp.py:151-158): a zero describe
return code means the topic exists and nothing is done; any non-zero
code is treated as absence and a create call is issued. -/
def ensure_topic (describeRc : Int) (ok : Event → Bool) (project_id topic : String) :
    List Event × Option String :=
  if describeRc == 0 then ([], none)
  else
    let e := Event.createTopic project_id topic
    ([e], if ok e then none else some "Command failed")

/-- Embedding of `ensure_service_account` (setup_gcp.py:161-168): the
deterministic email is returned whether or not the account had to be
created; any non-zero describe return code triggers a create call. -/
def ensure_service_account (describeRc : Int) (ok : Event → Bool)
    (project_id sa_id display_name : String) : List Event × Except String String :=
  let email := sa_id ++ "@" ++ project_id ++ ".iam.gserviceaccount.com"
  if describeRc == 0 then ([], Except.ok email)
  else
    let e := Event.createServiceAccount project_id sa_id display_name
    ([e], if ok e then Except.ok email else Except.error "Command failed")

/-- The four roles granted by `grant_service_account_roles`
(setup_gcp.py:172-177). -/
def saRoles : List String :=
  ["roles/cloudfunctions.developer", "roles/iam.serviceAccountUser",
   "roles/pubsub.admin", "roles/secretmanager.secretAccessor"]

/-- The role-granting loop of `grant_service_account_roles`
(setup_gcp.py:178-180), over an explicit role list. -/
def grantRolesLoop (ok : Event → Bool) (project_id email : String) :
    List String → List Event × Option String
  | [] => ([], none)
  | r :: rest =>
    let e := Event.grantRole project_id ("serviceAccount:" ++ email) r
    if ok e then
      let t := grantRolesLoop ok project_id email rest
      (e :: t.1, t.2)
    else ([e], some "Command failed")

/-- Embedding of `grant_service_account_roles` (setup_gcp.py:171-180). -/
def grant_service_account_roles (ok : Event → Bool) (project_id email : String) :
    List Event × Option String :=
  grantRolesLoop ok project_id email saRoles

/-- Embedding of `create_service_account_key` (setup_gcp.py:183-188): if
a file already exists at `output_path` the function raises before any
provider call (the trace is empty); otherwise the key-create call is
issued and the path returned. -/
def create_service_account_key (ok : Event → Bool) (email project_id output_path : String)
    (pathExists : Bool) : List Event × Except String String :=
  if pathExists then
    ([], Except.error ("Refusing to overwrite existing key: " ++ output_path))
  else
    let e := Event.createKey email output_path
    if ok e then ([e], Except.ok output_path)
    else ([e], Except.error "Command failed")

/-- The unconditional secret uploads of `configure_github_secrets`
(setup_gcp.py:207-209), aborting at the first failing call. -/
def setSecretList (ok : Event → Bool) : List (String × String) → List Event × Option String
  | [] => ([], none)
  | (n, v) :: rest =>
    let e := Event.secretSet n v
    if ok e then
      let t := setSecretList ok rest
      (e :: t.1, t.2)
    else ([e], some "Command failed")

/-- The optional secret uploads of `configure_github_secrets`
(setup_gcp.py:211-214): blank (after strip) values are skipped, others
are uploaded stripped. -/
def setOptionalList (ok : Event → Bool) : List (String × String) → List Event × Option String
  | [] => ([], none)
  | (n, v) :: rest =>
    if pyStrip v == "" then setOptionalList ok rest
    else
      let e := Event.secretSet n (pyStrip v)
      if ok e then
        let t := setOptionalList ok rest
        (e :: t.1, t.2)
      else ([e], some "Command failed")

/-- Embedding of `configure_github_secrets` (setup_gcp.py:191-214).
`ghScriptExists` models the `RUN_GH_SCRIPT.exists()` precondition;
`keyContent` is the text of the exported key file when one was produced;
`ingest`, `audience` and `issuers` are the interactively prompted
optional values. -/
def configure_github_secrets (ok : Event → Bool) (ghScriptExists : Bool)
    (project_id region topic : String) (keyContent : Option String)
    (ingest audience issuers : String) : List Event × Option String :=
  if !ghScriptExists then ([], some "scripts/run-gh.ps1 is required to set secrets via gh")
  else
    let secrets :=
      [("GCP_PROJECT", project_id), ("GCP_REGION", region), ("PUBSUB_TOPIC", topic)] ++
        (match keyContent with
          | some k => [("GCP_SA_KEY", k)]
          | none => [])
    let t1 := setSecretList ok secrets
    match t1.2 with
    | some err => (t1.1, some err)
    | none =>
      let t2 := setOptionalList ok
        [("INGEST_API_KEY", ingest), ("ALLOWED_AUDIENCE", audience),
         ("ALLOWED_ISSUERS", issuers)]
      (t1.1 ++ t2.1, t2.2)

/-- Characters kept by `format_display_name`'s first substitution
(`re.sub(r"[^a-zA-Z0-9 -]", " ", ...)`): ASCII letters, digits, space and
hyphen. -/
def dispKeep (c : Char) : Bool :=
  (decide (97 ≤ c.toNat) && decide (c.toNat ≤ 122)) ||
    (decide (65 ≤ c.toNat) && decide (c.toNat ≤ 90)) ||
    (decide (48 ≤ c.toNat) && decide (c.toNat ≤ 57)) || c == ' ' || c == '-'

/-- Model of `re.sub(r"\s+", " ", s)`: collapse each maximal whitespace
run to a single space. -/
def collapseWsAux : Bool → List Char → List Char
  | _, [] => []
  | prevWs, c :: cs =>
    if c.isWhitespace then
      if prevWs then collapseWsAux true cs
      else ' ' :: collapseWsAux true cs
    else c :: collapseWsAux false cs

/-- Embedding of `format_display_name` (setup_gcp.py:217-221). -/
def format_display_name (project_id : String) : String :=
  let safe := project_id.data.map (fun c => if dispKeep c then c else ' ')
  let safe := collapseWsAux false (stripWs safe)
  let label := if safe.isEmpty then "Oak Disperser".data else "Oak Disperser - ".data ++ safe
  String.mk (label.take 30)

/-- The three services enabled by `main` (setup_gcp.py:258-262). -/
def requiredServices : List String :=
  ["cloudfunctions.googleapis.com", "pubsub.googleapis.com", "secretmanager.googleapis.com"]

/-- The default key output path `REPO_ROOT / "gcp-service-account-key.json"`
(setup_gcp.py:271), modelled relative to the repository root. -/
def defaultKeyPath : String := "gcp-service-account-key.json"

/-- The parsed command-line arguments (setup_gcp.py:224-236).  `none`
models an omitted optional flag. -/
structure Args where
  project_id : Option String
  base_name : Option String
  region : String
  topic : String
  service_account_id : String
  service_account_name : String
  billing_account : Option String
  key_output : Option String
  configure_github : Bool
  dry_run : Bool

/-- The external world observed by one run of `main`: the repository
name, the describe return codes consumed by each existence probe, the
billing listing and scripted prompt answers, filesystem facts, the
interactive optional-secret answers, and the per-call success oracle for
mutating provider/secret-store calls. -/
structure Env where
  repoName : String
  genRcs : List Int
  explicitRc : Int
  recheckRc : Int
  billingListing : Option (List BillingAccount)
  billingInputs : List String
  topicRc : Int
  saRc : Int
  keyExists : Bool
  keyContent : String
  ghScriptExists : Bool
  ingest : String
  audience : String
  issuers : String
  callOk : Event → Bool

/-- Sequence two traced steps: if the first aborted, its error is final;
otherwise run the second and append its events. -/
def andThenT (t : List Event × Option String) (k : Unit → List Event × Option String) :
    List Event × Option String :=
  match t.2 with
  | some err => (t.1, some err)
  | none =>
    let t2 := k ()
    (t.1 ++ t2.1, t2.2)

/-- The base name resolved at the top of `main` (setup_gcp.py:242):
`args.base_name or sanitize_base(repo_base_name())` — Python `or`
falls through on an empty string. -/
def resolveBaseName (args : Args) (env : Env) : String :=
  match args.base_name with
  | some b => if b == "" then sanitize_base env.repoName else b
  | none => sanitize_base env.repoName

/-- Step 1 of `main` (setup_gcp.py:243-248): resolve the project id,
generating one when `--project-id` is absent (or empty, which is falsy),
and otherwise creating the project immediately when it does not exist.
Returns the traced step and the resolved id. -/
def resolveProjectStep (args : Args) (env : Env) : (List Event × Option String) × String :=
  match args.project_id with
  | none => (([], none), generate_project_id env.genRcs (resolveBaseName args env))
  | some pid =>
    if pid == "" then (([], none), generate_project_id env.genRcs (resolveBaseName args env))
    else if project_exists env.explicitRc then (([], none), pid)
    else (create_project env.callOk pid (format_display_name pid), pid)

/-- The key output path resolved by `main` (setup_gcp.py:271):
`args.key_output or REPO_ROOT / "gcp-service-account-key.json"` —
Python `or` falls through on a falsy (empty) path. -/
def resolveKeyPath (args : Args) : String :=
  match args.key_output with
  | some p => if p == "" then defaultKeyPath else p
  | none => defaultKeyPath

/-- The key-export step of `main` (setup_gcp.py:269-275): skipped
entirely under `--dry-run`; otherwise resolves the output path (explicit
or default) and calls `create_service_account_key`.  Returns the traced
step and the key path when one was produced. -/
def keyExportStep (args : Args) (env : Env) (sa_email project_id : String) :
    (List Event × Option String) × Option String :=
  if args.dry_run then (([], none), none)
  else
    match create_service_account_key env.callOk sa_email project_id (resolveKeyPath args)
        env.keyExists with
    | (es', Except.ok p) => ((es', none), some p)
    | (es', Except.error m) => ((es', some m), none)

/-- Embedding of `main` (setup_gcp.py:239-281) as the trace of provider
and secret-store calls it issues, together with the error that aborted
the run, if any.  Interactive blocking with exhausted scripted input is
reported as the pseudo-error `"blocked on operator input"` (the source
would wait forever).  Printing, `time.sleep`, `Path.resolve` and
`mkdir` have no observable effect in this model. -/
def mainRun (args : Args) (env : Env) : List Event × Option String :=
  let project_id := (resolveProjectStep args env).2
  andThenT (resolveProjectStep args env).1 (fun _ =>
    match select_billing_account args.billing_account env.billingListing env.billingInputs with
    | none => ([], some "blocked on operator input")
    | some billing_id =>
      andThenT
        (if truthyStr billing_id then link_billing env.callOk project_id (billing_id.getD "")
         else ([], none)) (fun _ =>
      andThenT
        (if project_exists env.recheckRc then ([], none)
         else create_project env.callOk project_id
           (format_display_name (resolveBaseName args env))) (fun _ =>
      andThenT (enable_services env.callOk project_id requiredServices) (fun _ =>
      andThenT (ensure_topic env.topicRc env.callOk project_id args.topic) (fun _ =>
        match ensure_service_account env.saRc env.callOk project_id
            args.service_account_id args.service_account_name with
        | (es, Except.error msg) => (es, some msg)
        | (es, Except.ok sa_email) =>
          andThenT (es, none) (fun _ =>
          andThenT (grant_service_account_roles env.callOk project_id sa_email) (fun _ =>
            andThenT (keyExportStep args env sa_email project_id).1 (fun _ =>
              if args.configure_github then
                configure_github_secrets env.callOk env.ghScriptExists project_id
                  args.region args.topic
                  ((keyExportStep args env sa_email project_id).2.map
                    (fun _ => env.keyContent))
                  env.ingest env.audience env.issuers
              else ([], none)))))))))

/-- The number of successive "exists" answers before the first
non-success describe return code: the number of collision retries the
loop performs. -/
def leadCount (rcs : List Int) : Nat :=
  (rcs.takeWhile (fun rc => project_exists rc)).length

/-- Is an `Except` result a success? -/
def exceptIsOk : Except String String → Bool
  | Except.ok _ => true
  | Except.error _ => false

/-! ### Concrete evaluations of the embedded functions -/

example : sanitize_base "My Repo!!" = "my-repo" := by decide
example : sanitize_base "A" = "a" := by decide
example : sanitize_base "!!" = "oak-disperser" := by decide
example : sanitize_base "" = "oak-disperser" := by decide
example : sanitize_base "--a--b--" = "a-b" := by decide

example : natChars 0 = ['0'] := by decide
example : natChars 1 = ['1'] := by decide
example : natChars 123 = ['1', '2', '3'] := by decide

example : pySliceTo "abcde".data 3 = "abc".data := by decide
example : pySliceTo "abcde".data (-1) = "abcd".data := by decide
example : pySliceTo "abcde".data (-7) = [] := by decide

example : generate_project_id [1] "My Repo!!" = "my-repo-oak-disperser" := by decide
example : ("my-repo-oak-disperser" : String).length = 21 := by decide
example : generate_project_id [1] "x" = "xoak-oak-disperser" := by decide
example : generate_project_id [0, 1] "My Repo!!" = "my-repo-oak-disperser-1" := by decide
example :
    generate_project_id [1] "aaaaaaaaaaaaaaaaaaaaaaaaa" =
      "aaaaaaaaaaaaaaaaaaaaaaaaa-oak-" := by decide
example :
    generate_project_id [0, 1] "aaaaaaaaaaaaaaaaaaaaaaa" =
      "aaaaaaaaaaaaaaaaaaaaaaa-oak--1" := by decide

example :
    select_billing_account (some "F") none [] = some (some "F") := by decide
example :
    select_billing_account none (some [⟨some "AAA", none, true, "d"⟩]) [] =
      some (some "AAA") := by decide
example :
    select_billing_account none (some [⟨none, some "billingAccounts/XYZ", false, "d"⟩]) [] =
      some (some "XYZ") := by decide
example :
    select_billing_account none (some [⟨none, none, true, "d"⟩]) ["1"] = some none := by decide
example :
    select_billing_account none (some []) ["1"] = some none := by decide
example :
    select_billing_account none
      (some [⟨some "A", none, true, "d"⟩, ⟨some "B", none, true, "d"⟩]) ["  "] =
      some none := by decide
example :
    select_billing_account none
      (some [⟨some "A", none, true, "d"⟩, ⟨some "B", none, true, "d"⟩]) ["2"] =
      some (some "B") := by decide
example :
    select_billing_account none
      (some [⟨some "A", none, true, "d"⟩, ⟨some "B", none, true, "d"⟩]) ["0", "x", "1"] =
      some (some "A") := by decide
example :
    select_billing_account none
      (some [⟨some "A", none, false, "d"⟩, ⟨some "B", none, true, "d"⟩]) [] =
      some (some "B") := by decide

example : isResourceName "my-repo-oak-disperser".data = true := by decide
example : isResourceName "aaaaaaaaaaaaaaaaaaaaaaaaa-oak-".data = false := by decide
example : isResourceName "aaaaaaaaaaaaaaaaaaaaaaa-oak--1".data = false := by decide

example : format_display_name "my-repo-oak-disperser" = "Oak Disperser - my-repo-oak-di" := by decide

example :
    mainRun
      ⟨some "p", none, "us-central1", "action-dispersal", "oak-disperser-ci",
        "Oak Disperser CI", some "B", none, true, true⟩
      ⟨"repo", [1], 0, 0, none, [], 1, 1, false, "KEY", true, "", "", "", fun _ => true⟩ =
    ([Event.linkBilling "p" "B",
      Event.enableService "p" "cloudfunctions.googleapis.com",
      Event.enableService "p" "pubsub.googleapis.com",
      Event.enableService "p" "secretmanager.googleapis.com",
      Event.createTopic "p" "action-dispersal",
      Event.createServiceAccount "p" "oak-disperser-ci" "Oak Disperser CI",
      Event.grantRole "p" "serviceAccount:oak-disperser-ci@p.iam.gserviceaccount.com"
        "roles/cloudfunctions.developer",
      Event.grantRole "p" "serviceAccount:oak-disperser-ci@p.iam.gserviceaccount.com"
        "roles/iam.serviceAccountUser",
      Event.grantRole "p" "serviceAccount:oak-disperser-ci@p.iam.gserviceaccount.com"
        "roles/pubsub.admin",
      Event.grantRole "p" "serviceAccount:oak-disperser-ci@p.iam.gserviceaccount.com"
        "roles/secretmanager.secretAccessor",
      Event.secretSet "GCP_PROJECT" "p",
      Event.secretSet "GCP_REGION" "us-central1",
      Event.secretSet "PUBSUB_TOPIC" "action-dispersal"], none) := by decide

example :
    mainRun
      ⟨some "p", none, "us-central1", "action-dispersal", "oak-disperser-ci",
        "Oak Disperser CI", some "B", none, false, false⟩
      ⟨"repo", [1], 0, 0, none, [], 0, 0, false, "KEY", true, "", "", "", fun _ => true⟩ =
    ([Event.linkBilling "p" "B",
      Event.enableService "p" "cloudfunctions.googleapis.com",
      Event.enableService "p" "pubsub.googleapis.com",
      Event.enableService "p" "secretmanager.googleapis.com",
      Event.grantRole "p" "serviceAccount:oak-disperser-ci@p.iam.gserviceaccount.com"
        "roles/cloudfunctions.developer",
      Event.grantRole "p" "serviceAccount:oak-disperser-ci@p.iam.gserviceaccount.com"
        "roles/iam.serviceAccountUser",
      Event.grantRole "p" "serviceAccount:oak-disperser-ci@p.iam.gserviceaccount.com"
        "roles/pubsub.admin",
      Event.grantRole "p" "serviceAccount:oak-disperser-ci@p.iam.gserviceaccount.com"
        "roles/secretmanager.secretAccessor",
      Event.createKey "oak-disperser-ci@p.iam.gserviceaccount.com"
        "gcp-service-account-key.json"], none) := by decide

example :
    mainRun
      ⟨some "p", none, "us-central1", "action-dispersal", "oak-disperser-ci",
        "Oak Disperser CI", some "B", none, false, false⟩
      ⟨"repo", [1], 0, 0, none, [], 0, 0, true, "KEY", true, "", "", "", fun _ => true⟩ =
    ([Event.linkBilling "p" "B",
      Event.enableService "p" "cloudfunctions.googleapis.com",
      Event.enableService "p" "pubsub.googleapis.com",
      Event.enableService "p" "secretmanager.googleapis.com",
      Event.grantRole "p" "serviceAccount:oak-disperser-ci@p.iam.gserviceaccount.com"
        "roles/cloudfunctions.developer",
      Event.grantRole "p" "serviceAccount:oak-disperser-ci@p.iam.gserviceaccount.com"
        "roles/iam.serviceAccountUser",
      Event.grantRole "p" "serviceAccount:oak-disperser-ci@p.iam.gserviceaccount.com"
        "roles/pubsub.admin",
      Event.grantRole "p" "serviceAccount:oak-disperser-ci@p.iam.gserviceaccount.com"
        "roles/secretmanager.secretAccessor"],
     some "Refusing to overwrite existing key: gcp-service-account-key.json") := by decide

/-! ### Lemmas about the sanitizer pipeline -/

theorem isAllowed_hyphen : isAllowed '-' = true := by decide

theorem mem_subBadAux {c : Char} :
    ∀ (flag : Bool) (l : List Char), c ∈ subBadAux flag l → isAllowed c = true := by
  intro flag l
  induction l generalizing flag with
  | nil => simp [subBadAux]
  | cons a t ih =>
    intro h
    simp only [subBadAux] at h
    by_cases ha : isAllowed a
    · rw [if_pos ha] at h
      rcases List.mem_cons.mp h with rfl | h
      · exact ha
      · exact ih false h
    · rw [if_neg ha] at h
      by_cases hf : flag = true
      · rw [if_pos hf] at h
        exact ih true h
      · rw [if_neg hf] at h
        rcases List.mem_cons.mp h with rfl | h
        · exact isAllowed_hyphen
        · exact ih true h

theorem toLower_eq_of_isAllowed {c : Char} (h : isAllowed c = true) :
    Char.toLower c = c := by
  have h45 : c = '-' → c.toNat = 45 := fun hc => by subst hc; decide
  simp only [isAllowed, Bool.or_eq_true, Bool.and_eq_true, decide_eq_true_eq,
    beq_iff_eq] at h
  unfold Char.toLower
  rw [if_neg]
  rintro ⟨h1, h2⟩
  rcases h with (⟨h3, h4⟩ | ⟨h3, h4⟩) | h3
  · omega
  · omega
  · have := h45 h3
    omega

theorem map_toLower_of_allowed {l : List Char} (h : ∀ c ∈ l, isAllowed c = true) :
    l.map Char.toLower = l := by
  induction l with
  | nil => rfl
  | cons a t ih =>
    simp only [List.map_cons]
    rw [toLower_eq_of_isAllowed (h a (List.mem_cons_self a t)),
      ih (fun c hc => h c (List.mem_cons_of_mem a hc))]

theorem subBadAux_eq_of_allowed {l : List Char} (h : ∀ c ∈ l, isAllowed c = true) :
    ∀ flag, subBadAux flag l = l := by
  induction l with
  | nil => intro flag; rfl
  | cons a t ih =>
    intro flag
    simp only [subBadAux]
    rw [if_pos (h a (List.mem_cons_self a t)), ih (fun c hc => h c (List.mem_cons_of_mem a hc))]

theorem mem_stripHyphens {c : Char} {l : List Char} (h : c ∈ stripHyphens l) : c ∈ l := by
  unfold stripHyphens at h
  rw [List.mem_reverse] at h
  have h1 := List.dropWhile_subset (fun c => c == '-') h
  rw [List.mem_reverse] at h1
  exact List.dropWhile_subset (fun c => c == '-') h1

theorem head?_dropHyphen_ne (l : List Char) :
    (l.dropWhile (fun c => c == '-')).head? ≠ some '-' := by
  intro h
  have := List.head?_dropWhile_not (fun c => c == '-') l
  rw [h] at this
  simp at this

theorem stripHyphens_head? (l : List Char) : (stripHyphens l).head? ≠ some '-' := by
  unfold stripHyphens
  intro h
  set A := l.dropWhile (fun c => c == '-') with hA
  set Y := A.reverse.dropWhile (fun c => c == '-') with hY
  have hYne : Y ≠ [] := by
    intro he
    rw [he] at h
    simp at h
  have hsuf : Y <:+ A.reverse := List.dropWhile_suffix _
  obtain ⟨u, hu⟩ := hsuf
  have : Y.reverse.head? = Y.getLast? := by
    simp [List.head?_reverse]
  rw [this] at h
  have hglA : A.reverse.getLast? = some '-' := by
    rw [← hu, List.getLast?_append]
    have : Y.getLast? = some '-' := h
    rw [this]
    rfl
  rw [List.getLast?_reverse] at hglA
  exact head?_dropHyphen_ne l hglA

theorem stripHyphens_getLast? (l : List Char) : (stripHyphens l).getLast? ≠ some '-' := by
  unfold stripHyphens
  rw [List.getLast?_reverse]
  exact head?_dropHyphen_ne (l.dropWhile (fun c => c == '-')).reverse

theorem noRepeatHyphen_cons {a : Char} {l : List Char} :
    noRepeatHyphen (a :: l) = true ↔
      noRepeatHyphen l = true ∧ (a = '-' → l.head? ≠ some '-') := by
  cases l with
  | nil => simp [noRepeatHyphen]
  | cons b t =>
    simp only [noRepeatHyphen, Bool.and_eq_true, Bool.not_eq_true', List.head?_cons]
    constructor
    · rintro ⟨h1, h2⟩
      refine ⟨h2, fun ha hb => ?_⟩
      rw [Option.some_inj] at hb
      subst ha hb
      simp at h1
    · rintro ⟨h1, h2⟩
      refine ⟨?_, h1⟩
      by_cases ha : a = '-'
      · have hb := h2 ha
        have : b ≠ '-' := fun hb' => hb (by rw [hb'])
        simp [ha, this]
      · simp [ha]

theorem mem_collapseAux {c : Char} :
    ∀ (flag : Bool) (l : List Char), c ∈ collapseAux flag l → c = '-' ∨ c ∈ l := by
  intro flag l
  induction l generalizing flag with
  | nil => simp [collapseAux]
  | cons a t ih =>
    intro h
    simp only [collapseAux] at h
    by_cases ha : (a == '-') = true
    · rw [if_pos ha] at h
      by_cases hf : flag = true
      · rw [if_pos hf] at h
        rcases ih true h with h' | h'
        · exact Or.inl h'
        · exact Or.inr (List.mem_cons_of_mem a h')
      · rw [if_neg hf] at h
        rcases List.mem_cons.mp h with rfl | h
        · exact Or.inl rfl
        · rcases ih true h with h' | h'
          · exact Or.inl h'
          · exact Or.inr (List.mem_cons_of_mem a h')
    · rw [if_neg ha] at h
      rcases List.mem_cons.mp h with rfl | h
      · exact Or.inr (List.mem_cons_self c t)
      · rcases ih false h with h' | h'
        · exact Or.inl h'
        · exact Or.inr (List.mem_cons_of_mem a h')

theorem collapseAux_false_head? (l : List Char) :
    (collapseAux false l).head? = l.head? := by
  cases l with
  | nil => rfl
  | cons a t =>
    simp only [collapseAux]
    by_cases ha : (a == '-') = true
    · rw [if_pos ha, if_neg (by simp)]
      rw [beq_iff_eq] at ha
      simp [ha]
    · rw [if_neg ha]
      simp

theorem collapseAux_false_eq_nil {l : List Char} (h : collapseAux false l = []) :
    l = [] := by
  cases l with
  | nil => rfl
  | cons a t =>
    exfalso
    simp only [collapseAux] at h
    by_cases ha : (a == '-') = true
    · rw [if_pos ha, if_neg (by simp)] at h
      exact List.cons_ne_nil _ _ h
    · rw [if_neg ha] at h
      exact List.cons_ne_nil _ _ h

theorem collapseAux_eq_nil_all_hyphen :
    ∀ (l : List Char), collapseAux true l = [] → ∀ c ∈ l, c = '-' := by
  intro l
  induction l with
  | nil => simp
  | cons a t ih =>
    intro h c hc
    simp only [collapseAux] at h
    by_cases ha : (a == '-') = true
    · rw [if_pos ha, if_pos True.intro] at h
      rw [beq_iff_eq] at ha
      rcases List.mem_cons.mp hc with rfl | hc
      · exact ha
      · exact ih h c hc
    · rw [if_neg ha] at h
      exact absurd h (List.cons_ne_nil _ _)

theorem getLast?_all_hyphen {l : List Char} (hne : l ≠ [])
    (h : ∀ c ∈ l, c = '-') : l.getLast? = some '-' := by
  cases hl : l.getLast? with
  | none => exact absurd (List.getLast?_eq_none_iff.mp hl) hne
  | some c =>
    have : c ∈ l := List.mem_of_getLast?_eq_some hl
    rw [h c this]

theorem collapseAux_getLast? :
    ∀ (l : List Char) (flag : Bool), l.getLast? ≠ some '-' →
      (collapseAux flag l).getLast? ≠ some '-' := by
  intro l
  induction l with
  | nil => intro flag _; simp [collapseAux]
  | cons a t ih =>
    intro flag hl
    simp only [collapseAux]
    by_cases ha : (a == '-') = true
    · rw [beq_iff_eq] at ha
      subst ha
      have htne : t ≠ [] := by
        intro he
        subst he
        simp at hl
      obtain ⟨b, u, rfl⟩ := List.exists_cons_of_ne_nil htne
      rw [List.getLast?_cons_cons] at hl
      rw [if_pos (by simp)]
      by_cases hf : flag = true
      · rw [if_pos hf]
        exact ih true hl
      · rw [if_neg hf]
        intro hcon
        cases hX : collapseAux true (b :: u) with
        | nil =>
          have hall := collapseAux_eq_nil_all_hyphen (b :: u) hX
          exact hl (getLast?_all_hyphen (List.cons_ne_nil _ _) hall)
        | cons x xs =>
          rw [hX, List.getLast?_cons_cons] at hcon
          exact ih true hl (by rw [hX]; exact hcon)
    · rw [if_neg ha]
      cases t with
      | nil =>
        simp only [collapseAux]
        simp only [List.getLast?_singleton, ne_eq, Option.some_inj]
        rw [beq_iff_eq] at ha
        exact ha
      | cons b u =>
        rw [List.getLast?_cons_cons] at hl
        intro hcon
        cases hX : collapseAux false (b :: u) with
        | nil =>
          exact absurd (collapseAux_false_eq_nil hX) (List.cons_ne_nil _ _)
        | cons x xs =>
          rw [hX, List.getLast?_cons_cons] at hcon
          exact ih false hl (by rw [hX]; exact hcon)

theorem collapseAux_noRepeat :
    ∀ (l : List Char) (flag : Bool),
      noRepeatHyphen (collapseAux flag l) = true ∧
        (flag = true → (collapseAux flag l).head? ≠ some '-') := by
  intro l
  induction l with
  | nil => intro flag; exact ⟨rfl, by simp [collapseAux]⟩
  | cons a t ih =>
    intro flag
    simp only [collapseAux]
    by_cases ha : (a == '-') = true
    · rw [if_pos ha]
      by_cases hf : flag = true
      · subst hf
        rw [if_pos rfl]
        exact ih true
      · rw [if_neg hf]
        constructor
        · rw [noRepeatHyphen_cons]
          exact ⟨(ih true).1, fun _ => (ih true).2 rfl⟩
        · intro hcon
          exact absurd hcon hf
    · rw [if_neg ha]
      rw [beq_iff_eq] at ha
      constructor
      · rw [noRepeatHyphen_cons]
        exact ⟨(ih false).1, fun hcon => absurd hcon ha⟩
      · intro _ hcon
        rw [List.head?_cons, Option.some_inj] at hcon
        exact ha hcon

theorem collapseAux_eq_self :
    ∀ (l : List Char) (flag : Bool), noRepeatHyphen l = true →
      (flag = true → l.head? ≠ some '-') → collapseAux flag l = l := by
  intro l
  induction l with
  | nil => intro flag _ _; rfl
  | cons a t ih =>
    intro flag hnr hhd
    rw [noRepeatHyphen_cons] at hnr
    simp only [collapseAux]
    by_cases ha : (a == '-') = true
    · rw [beq_iff_eq] at ha
      by_cases hf : flag = true
      · exact absurd (by rw [List.head?_cons, ha]) (hhd hf)
      · rw [if_pos (by rw [beq_iff_eq]; exact ha), if_neg hf]
        rw [ih true hnr.1 (fun _ => hnr.2 ha), ha]
    · rw [if_neg ha]
      rw [ih false hnr.1 (by simp)]

theorem dropHyphen_eq_self {l : List Char} (h : l.head? ≠ some '-') :
    l.dropWhile (fun c => c == '-') = l := by
  cases l with
  | nil => rfl
  | cons a t =>
    rw [List.head?_cons, ne_eq, Option.some_inj] at h
    rw [List.dropWhile_cons_of_neg]
    simp only [beq_iff_eq]
    exact h

theorem stripHyphens_eq_self {l : List Char} (h1 : l.head? ≠ some '-')
    (h2 : l.getLast? ≠ some '-') : stripHyphens l = l := by
  unfold stripHyphens
  rw [dropHyphen_eq_self h1]
  rw [dropHyphen_eq_self (by rw [List.head?_reverse]; exact h2)]
  exact List.reverse_reverse l

/-! ### The sanitizer output is clean, and clean strings are fixed points -/

theorem mem_sanitizeCleaned_allowed {v : String} {c : Char}
    (h : c ∈ sanitizeCleaned v) : isAllowed c = true := by
  unfold sanitizeCleaned collapseHyphens at h
  rcases mem_collapseAux false _ h with rfl | h
  · exact isAllowed_hyphen
  · exact mem_subBadAux false _ (mem_stripHyphens h)

theorem sanitizeCleaned_head? (v : String) : (sanitizeCleaned v).head? ≠ some '-' := by
  unfold sanitizeCleaned collapseHyphens
  rw [collapseAux_false_head?]
  exact stripHyphens_head? _

theorem sanitizeCleaned_getLast? (v : String) :
    (sanitizeCleaned v).getLast? ≠ some '-' :=
  collapseAux_getLast? _ false (stripHyphens_getLast? _)

theorem sanitizeCleaned_noRepeat (v : String) :
    noRepeatHyphen (sanitizeCleaned v) = true :=
  (collapseAux_noRepeat _ false).1

theorem sanitize_base_data (v : String) :
    (sanitize_base v).data =
      if (sanitizeCleaned v).isEmpty then "oak-disperser".data else sanitizeCleaned v := by
  unfold sanitize_base
  split
  · rfl
  · rfl

theorem sanitize_base_allowed (v : String) :
    ∀ c ∈ (sanitize_base v).data, isAllowed c = true := by
  rw [sanitize_base_data]
  split
  · intro c hc
    exact List.all_eq_true.mp (by decide) c hc
  · exact fun c hc => mem_sanitizeCleaned_allowed hc

theorem sanitize_base_head? (v : String) :
    (sanitize_base v).data.head? ≠ some '-' := by
  rw [sanitize_base_data]
  split
  · decide
  · exact sanitizeCleaned_head? v

theorem sanitize_base_getLast? (v : String) :
    (sanitize_base v).data.getLast? ≠ some '-' := by
  rw [sanitize_base_data]
  split
  · decide
  · exact sanitizeCleaned_getLast? v

theorem sanitize_base_noRepeat (v : String) :
    noRepeatHyphen (sanitize_base v).data = true := by
  rw [sanitize_base_data]
  split
  · decide
  · exact sanitizeCleaned_noRepeat v

theorem sanitize_base_data_ne_nil (v : String) : (sanitize_base v).data ≠ [] := by
  rw [sanitize_base_data]
  split
  · decide
  · rename_i h
    rw [Bool.not_eq_true, List.isEmpty_eq_false] at h
    exact h

theorem sanitizeCleaned_of_clean {w : String}
    (hall : ∀ c ∈ w.data, isAllowed c = true)
    (h1 : w.data.head? ≠ some '-') (h2 : w.data.getLast? ≠ some '-')
    (h3 : noRepeatHyphen w.data = true) : sanitizeCleaned w = w.data := by
  unfold sanitizeCleaned
  rw [map_toLower_of_allowed hall]
  rw [show subBadRuns w.data = w.data from subBadAux_eq_of_allowed hall false]
  rw [stripHyphens_eq_self h1 h2]
  exact collapseAux_eq_self _ false h3 (by simp)

theorem sanitize_base_fixed (v : String) :
    sanitize_base (sanitize_base v) = sanitize_base v := by
  have hclean : sanitizeCleaned (sanitize_base v) = (sanitize_base v).data :=
    sanitizeCleaned_of_clean (sanitize_base_allowed v) (sanitize_base_head? v)
      (sanitize_base_getLast? v) (sanitize_base_noRepeat v)
  rw [sanitize_base, hclean]
  rw [if_neg (by rw [List.isEmpty_eq_true]; exact sanitize_base_data_ne_nil v)]

theorem subBadAux_all_bad :
    ∀ (l : List Char), (∀ c ∈ l, isAllowed c = false) →
      subBadAux true l = [] ∧
        subBadAux false l = (if l.isEmpty then [] else ['-']) := by
  intro l
  induction l with
  | nil => intro _; exact ⟨rfl, rfl⟩
  | cons a t ih =>
    intro h
    have ha : isAllowed a = false := h a (List.mem_cons_self a t)
    have ih' := ih (fun c hc => h c (List.mem_cons_of_mem a hc))
    constructor
    · simp only [subBadAux, ha]
      simp [ih'.1]
    · simp only [subBadAux, ha]
      simp [ih'.1]

theorem sanitizeCleaned_all_bad {v : String}
    (h : ∀ c ∈ v.data, isAllowed (Char.toLower c) = false) :
    sanitizeCleaned v = [] := by
  unfold sanitizeCleaned
  have hbad : ∀ c ∈ v.data.map Char.toLower, isAllowed c = false := by
    intro c hc
    rcases List.mem_map.mp hc with ⟨a, ha, rfl⟩
    exact h a ha
  have hsub := (subBadAux_all_bad _ hbad).2
  rw [show subBadRuns (v.data.map Char.toLower) = subBadAux false (v.data.map Char.toLower)
    from rfl, hsub]
  by_cases he : (v.data.map Char.toLower).isEmpty = true
  · rw [if_pos he]
    rfl
  · rw [if_neg he]
    decide

/-! ### Decimal digit strings -/

theorem digitChar_allowed {m : Nat} (h : m < 10) :
    isAllowed (Nat.digitChar m) = true := by
  interval_cases m <;> decide

theorem natCharsAux_allowed :
    ∀ (fuel n : Nat), n < fuel → (natCharsAux fuel n).all isAllowed = true := by
  intro fuel
  induction fuel with
  | zero => intro n h; omega
  | succ f ih =>
    intro n h
    simp only [natCharsAux]
    by_cases h10 : n < 10
    · rw [if_pos h10]
      simp only [List.all_cons, List.all_nil, Bool.and_true]
      exact digitChar_allowed h10
    · rw [if_neg h10]
      rw [List.all_append]
      have hdiv : n / 10 < f := by
        have := Nat.div_lt_self (by omega : 0 < n) (by omega : 1 < 10)
        omega
      rw [ih (n / 10) hdiv]
      simp only [List.all_cons, List.all_nil, Bool.and_true, Bool.true_and]
      exact digitChar_allowed (Nat.mod_lt n (by omega))

theorem natChars_allowed (n : Nat) : (natChars n).all isAllowed = true :=
  natCharsAux_allowed (n + 1) n (Nat.lt_succ_self n)

theorem natCharsAux_length :
    ∀ (fuel n d : Nat), n < fuel → n < 10 ^ (d + 1) →
      (natCharsAux fuel n).length ≤ d + 1 := by
  intro fuel
  induction fuel with
  | zero => intro n d h _; omega
  | succ f ih =>
    intro n d h hd
    simp only [natCharsAux]
    by_cases h10 : n < 10
    · rw [if_pos h10]
      simp
    · rw [if_neg h10]
      rw [List.length_append]
      cases d with
      | zero =>
        have : (10 : Nat) ^ (0 + 1) = 10 := by norm_num
        omega
      | succ e =>
        have hdiv : n / 10 < f := by
          have := Nat.div_lt_self (by omega : 0 < n) (by omega : 1 < 10)
          omega
        have hlt : n / 10 < 10 ^ (e + 1) := by
          rw [Nat.div_lt_iff_lt_mul (by omega : 0 < 10)]
          calc n < 10 ^ (e + 1 + 1) := hd
            _ = 10 ^ (e + 1) * 10 := by ring
        have := ih (n / 10) e hdiv hlt
        simp only [List.length_singleton]
        omega

theorem natChars_length_le {n d : Nat} (h : n < 10 ^ (d + 1)) :
    (natChars n).length ≤ d + 1 :=
  natCharsAux_length (n + 1) n d (Nat.lt_succ_self n) h

/-! ### The padded, suffixed sanitized base of the generator -/

theorem pad10_allowed {s0 : List Char} (h : ∀ c ∈ s0, isAllowed c = true) :
    ∀ c ∈ pad10 s0, isAllowed c = true := by
  unfold pad10
  intro c hc
  split at hc
  · have := List.take_subset 10 _ hc
    rcases List.mem_append.mp this with h' | h'
    · exact h c h'
    · exact List.all_eq_true.mp (by decide) c h'
  · exact h c hc

theorem pad10_ne_nil {s0 : List Char} (h : s0 ≠ []) : pad10 s0 ≠ [] := by
  unfold pad10
  split
  · rw [ne_eq, List.take_eq_nil_iff]
    rintro (h' | h')
    · omega
    · exact h (List.append_eq_nil.mp h').1
  · exact h

theorem pad10_head? {s0 : List Char} (hne : s0 ≠ []) (h : s0.head? ≠ some '-') :
    (pad10 s0).head? ≠ some '-' := by
  unfold pad10
  split
  · rw [List.head?_take, if_neg (by omega), List.head?_append]
    cases hh : s0.head? with
    | none => exact absurd (List.head?_eq_none_iff.mp hh) hne
    | some x =>
      rw [hh] at h
      simp only [Option.or_some]
      exact h
  · exact h

theorem withDomainTok_allowed {s1 : List Char} (h : ∀ c ∈ s1, isAllowed c = true) :
    ∀ c ∈ withDomainTok s1, isAllowed c = true := by
  unfold withDomainTok
  intro c hc
  split at hc
  · exact h c hc
  · rcases List.mem_append.mp hc with h' | h'
    · exact h c h'
    · exact List.all_eq_true.mp (by decide) c h'

theorem withDomainTok_ne_nil (s1 : List Char) : withDomainTok s1 ≠ [] := by
  unfold withDomainTok
  split
  · rename_i h
    intro he
    subst he
    simp [List.isSuffixOf_iff_suffix, domainTok] at h
  · exact List.append_ne_nil_of_right_ne_nil _ (by decide)

theorem withDomainTok_head? {s1 : List Char} (hne : s1 ≠ []) (h : s1.head? ≠ some '-') :
    (withDomainTok s1).head? ≠ some '-' := by
  unfold withDomainTok
  split
  · exact h
  · rw [List.head?_append]
    cases hh : s1.head? with
    | none => exact absurd (List.head?_eq_none_iff.mp hh) hne
    | some x =>
      rw [hh] at h
      simp only [Option.or_some]
      exact h

theorem withDomainTok_suffix (s1 : List Char) : domainTok <:+ withDomainTok s1 := by
  unfold withDomainTok
  split
  · rename_i h
    exact List.isSuffixOf_iff_suffix.mp h
  · exact List.suffix_append _ _

theorem paddedSanitized_ne_nil (b : String) : paddedSanitized b ≠ [] :=
  withDomainTok_ne_nil _

theorem paddedSanitized_allowed (b : String) :
    ∀ c ∈ paddedSanitized b, isAllowed c = true :=
  withDomainTok_allowed (pad10_allowed (sanitize_base_allowed b))

theorem paddedSanitized_head? (b : String) :
    (paddedSanitized b).head? ≠ some '-' :=
  withDomainTok_head? (pad10_ne_nil (sanitize_base_data_ne_nil b))
    (pad10_head? (sanitize_base_data_ne_nil b) (sanitize_base_head? b))

theorem paddedSanitized_suffix (b : String) : domainTok <:+ paddedSanitized b :=
  withDomainTok_suffix _

/-! ### A closed form for the generator's retry loop -/

theorem genLoop_closed (s : List Char) :
    ∀ (rcs : List Int) (pid : List Char) (suffix : Nat),
      genLoop s pid suffix rcs =
        (match leadCount rcs with
         | 0 => pid
         | k + 1 => candidateId s (suffix + k)) := by
  intro rcs
  induction rcs with
  | nil => intro pid suffix; rfl
  | cons rc rest ih =>
    intro pid suffix
    simp only [genLoop, leadCount]
    by_cases h : project_exists rc = true
    · rw [if_pos h, List.takeWhile_cons_of_pos h]
      rw [ih (candidateId s suffix) (suffix + 1)]
      simp only [List.length_cons]
      cases hk : leadCount rest with
      | zero =>
        rw [show ((rest.takeWhile fun rc => project_exists rc).length) = leadCount rest
          from rfl, hk]
        simp
      | succ k =>
        rw [show ((rest.takeWhile fun rc => project_exists rc).length) = leadCount rest
          from rfl, hk]
        simp only []
        congr 1
        omega
    · rw [if_neg h, List.takeWhile_cons_of_neg h]
      rfl

theorem generate_project_id_data (rcs : List Int) (b : String) :
    (generate_project_id rcs b).data =
      (match leadCount rcs with
       | 0 => (paddedSanitized b).take 30
       | k + 1 => candidateId (paddedSanitized b) (k + 1)) := by
  unfold generate_project_id
  rw [show (String.mk (genLoop (paddedSanitized b) ((paddedSanitized b).take 30) 1 rcs)).data
    = genLoop (paddedSanitized b) ((paddedSanitized b).take 30) 1 rcs from rfl]
  rw [genLoop_closed]
  cases hk : leadCount rcs with
  | zero => rfl
  | succ k =>
    simp only []
    congr 1
    omega

/-! ### Candidate identifier shape -/

theorem candidateId_spec {s : List Char} {m : Nat} (hd : (natChars m).length ≤ 28) :
    candidateId s m = s.take (29 - (natChars m).length) ++ '-' :: natChars m := by
  unfold candidateId pySliceTo
  rw [if_pos (by omega : (0 : Int) ≤ 30 - ((natChars m).length : Int) - 1)]
  congr 2
  omega

theorem candidateId_length {s : List Char} {m : Nat} (hd : (natChars m).length ≤ 28) :
    (candidateId s m).length ≤ 30 := by
  rw [candidateId_spec hd]
  rw [List.length_append, List.length_take, List.length_cons]
  have := Nat.min_le_left (29 - (natChars m).length) s.length
  omega

theorem candidateId_allowed {s : List Char} {m : Nat}
    (hall : ∀ c ∈ s, isAllowed c = true) :
    ∀ c ∈ candidateId s m, isAllowed c = true := by
  unfold candidateId pySliceTo
  intro c hc
  rcases List.mem_append.mp hc with h | h
  · split at h
    · exact hall c (List.take_subset _ _ h)
    · exact hall c (List.take_subset _ _ h)
  · rcases List.mem_cons.mp h with rfl | h
    · exact isAllowed_hyphen
    · exact List.all_eq_true.mp (natChars_allowed m) c h

theorem candidateId_ne_nil (s : List Char) (m : Nat) : candidateId s m ≠ [] := by
  unfold candidateId
  exact List.append_ne_nil_of_right_ne_nil _ (List.cons_ne_nil _ _)

theorem candidateId_head? {s : List Char} {m : Nat} (hne : s ≠ [])
    (hh : s.head? ≠ some '-') (hd : (natChars m).length ≤ 28) :
    (candidateId s m).head? ≠ some '-' := by
  rw [candidateId_spec hd]
  rw [List.head?_append, List.head?_take, if_neg (by omega)]
  cases hs : s.head? with
  | none => exact absurd (List.head?_eq_none_iff.mp hs) hne
  | some x =>
    rw [hs] at hh
    simp only [Option.or_some]
    exact hh

/-! ### Claim theorems for the sanitizer and the generator -/

/-- C2 (counterexample): the claim "every identifier returned by
`generate_project_id` satisfies the ResourceName invariant" is false.
For the base name of twenty-five `a`s and a prober immediately reporting
non-existence (describe return code 1), the returned identifier is the
truncation `"aaaaaaaaaaaaaaaaaaaaaaaaa-oak-"`, which ends with a hyphen. -/
theorem c2_counterexample :
    isResourceName (generate_project_id [1] "aaaaaaaaaaaaaaaaaaaaaaaaa").data = false ∧
      (generate_project_id [1] "aaaaaaaaaaaaaaaaaaaaaaaaa").data.getLast? = some '-' := by
  decide

/-- C2 (amended): for every base name and every probe-answer sequence
with fewer than `10^28` leading collision answers, the identifier
returned by `generate_project_id` is non-empty, at most 30 characters,
contains only lowercase letters, digits and hyphens, and does not start
with a hyphen.  (It may end with a hyphen or contain repeated hyphens:
the 30-character truncation and the collision-suffix splice can cut or
abut at a hyphen.) -/
theorem c2_generated_id_invariant (b : String) (rcs : List Int)
    (h : leadCount rcs < 10 ^ 28) :
    (generate_project_id rcs b).data ≠ [] ∧
      (generate_project_id rcs b).data.length ≤ 30 ∧
      (generate_project_id rcs b).data.all isAllowed = true ∧
      (generate_project_id rcs b).data.head? ≠ some '-' := by
  rw [generate_project_id_data]
  cases hk : leadCount rcs with
  | zero =>
    refine ⟨?_, ?_, ?_, ?_⟩
    · rw [ne_eq, List.take_eq_nil_iff]
      rintro (h' | h')
      · omega
      · exact paddedSanitized_ne_nil b h'
    · rw [List.length_take]
      exact Nat.min_le_left _ _
    · rw [List.all_eq_true]
      intro c hc
      exact paddedSanitized_allowed b c (List.take_subset _ _ hc)
    · rw [List.head?_take, if_neg (by omega)]
      exact paddedSanitized_head? b
  | succ k =>
    rw [hk] at h
    have hd : (natChars (k + 1)).length ≤ 28 := natChars_length_le (d := 27) h
    refine ⟨candidateId_ne_nil _ _, candidateId_length hd, ?_,
      candidateId_head? (paddedSanitized_ne_nil b) (paddedSanitized_head? b) hd⟩
    rw [List.all_eq_true]
    exact fun c hc => candidateId_allowed (paddedSanitized_allowed b) c hc

/-- C2 (witness): the amended invariant evaluated at the scenario base
name with no collision. -/
theorem c2_witness :
    (generate_project_id [1] "My Repo!!").data ≠ [] ∧
      (generate_project_id [1] "My Repo!!").data.length ≤ 30 ∧
      (generate_project_id [1] "My Repo!!").data.all isAllowed = true ∧
      (generate_project_id [1] "My Repo!!").data.head? ≠ some '-' :=
  c2_generated_id_invariant "My Repo!!" [1] (by decide)

/-- C3: for every base name, the no-collision identifier is at most 30
characters and, whenever the padded-sanitized base was not truncated
(its length is at most 30), the identifier ends with the fixed domain
suffix token `"-oak-disperser"`; and when the prober reports the first
candidate as taken, the second candidate is the 28-character stem of the
padded base followed by the numeric suffix `-1`, the first candidate is
that same stem followed by the two original characters that the suffix
replaced, and the second candidate is still at most 30 characters. -/
theorem c3_candidate_shape (b : String) :
    (generate_project_id [1] b).length ≤ 30 ∧
      ((paddedSanitized b).length ≤ 30 →
        domainTok.isSuffixOf (generate_project_id [1] b).data = true) ∧
      (generate_project_id [0, 1] b).data =
        (paddedSanitized b).take 28 ++ '-' :: natChars 1 ∧
      (generate_project_id [1] b).data =
        (paddedSanitized b).take 28 ++ ((paddedSanitized b).drop 28).take 2 ∧
      (generate_project_id [0, 1] b).length ≤ 30 := by
  have h1 : (generate_project_id [1] b).data = (paddedSanitized b).take 30 := by
    rw [generate_project_id_data, show leadCount [1] = 0 from by decide]
  have h2 : (generate_project_id [0, 1] b).data = candidateId (paddedSanitized b) 1 := by
    rw [generate_project_id_data, show leadCount [0, 1] = 1 from by decide]
  have hlen1 : (generate_project_id [1] b).length = (generate_project_id [1] b).data.length :=
    rfl
  have hlen2 :
      (generate_project_id [0, 1] b).length = (generate_project_id [0, 1] b).data.length :=
    rfl
  refine ⟨?_, ?_, ?_, ?_, ?_⟩
  · rw [hlen1, h1, List.length_take]
    exact Nat.min_le_left _ _
  · intro hle
    rw [h1, List.take_of_length_le hle, List.isSuffixOf_iff_suffix]
    exact paddedSanitized_suffix b
  · rw [h2, candidateId_spec (by decide : (natChars 1).length ≤ 28)]
    rw [show 29 - (natChars 1).length = 28 from by decide]
  · rw [h1, show (30 : Nat) = 28 + 2 from rfl, List.take_add]
  · rw [hlen2, h2]
    exact candidateId_length (by decide)

/-- C3 (witness): the conditional conjunct evaluated at a concrete base
whose padded-sanitized form is within the 30-character bound. -/
theorem c3_witness :
    (generate_project_id [1] "My Repo!!").length ≤ 30 ∧
      domainTok.isSuffixOf (generate_project_id [1] "My Repo!!").data = true :=
  ⟨(c3_candidate_shape "My Repo!!").1, (c3_candidate_shape "My Repo!!").2.1 (by decide)⟩

/-- C7 (counterexample): the claim fixes the length of the generated
identifier at 22 characters, but `"my-repo-oak-disperser"` has 21. -/
theorem c7_counterexample :
    ¬ ((generate_project_id [1] "My Repo!!").length = 22) := by decide

/-- C7 (amended): for the base name `"My Repo!!"`, `sanitize_base`
yields `"my-repo"` and, with the prober reporting no collision,
`generate_project_id` yields `"my-repo-oak-disperser"`, which is 21
characters long and under the 30-character bound. -/
theorem c7_scenario :
    sanitize_base "My Repo!!" = "my-repo" ∧
      generate_project_id [1] "My Repo!!" = "my-repo-oak-disperser" ∧
      (generate_project_id [1] "My Repo!!").length = 21 ∧
      (generate_project_id [1] "My Repo!!").length < 30 := by decide

/-- C8 (counterexample): the input `"A"` consists only of characters
outside `[a-z0-9-]`, yet `sanitize_base` returns `"a"` (the input is
lowercased before the character class is applied), not the fallback
token. -/
theorem c8_counterexample :
    (∀ c ∈ ("A" : String).data, isAllowed c = false) ∧
      sanitize_base "A" = "a" ∧ sanitize_base "A" ≠ "oak-disperser" := by decide

/-- C8 (amended): for every input string `sanitize_base` returns a
non-empty string; and for every input all of whose characters are still
outside `[a-z0-9-]` after lowercasing (in particular the empty input),
it returns the fixed fallback token `"oak-disperser"`. -/
theorem c8_sanitize_nonempty_fallback :
    (∀ v : String, sanitize_base v ≠ "") ∧
      (∀ v : String, (∀ c ∈ v.data, isAllowed (Char.toLower c) = false) →
        sanitize_base v = "oak-disperser") := by
  constructor
  · intro v hv
    exact sanitize_base_data_ne_nil v (congrArg String.data hv)
  · intro v h
    unfold sanitize_base
    rw [if_pos (by rw [sanitizeCleaned_all_bad h]; rfl)]

/-- C8 (witness): the amended fallback property at concrete inputs. -/
theorem c8_witness :
    sanitize_base "!!" ≠ "" ∧ sanitize_base "!!" = "oak-disperser" :=
  ⟨c8_sanitize_nonempty_fallback.1 "!!", c8_sanitize_nonempty_fallback.2 "!!" (by decide)⟩

/-- C9: `sanitize_base` is idempotent: sanitizing an already sanitized
string returns it unchanged, for every input string. -/
theorem c9_sanitize_idempotent (x : String) :
    sanitize_base (sanitize_base x) = sanitize_base x :=
  sanitize_base_fixed x

/-! ### Claim theorems for the probes, the key export and the selector -/

/-- C6: each existence probe reports "exists" exactly when the describe
call's return code is zero; every non-zero return code — whatever its
cause — makes `project_exists` answer `false` and makes `ensure_topic`
and `ensure_service_account` treat the resource as absent (issue a
create call), and a zero return code makes them do nothing and return
without any error. -/
theorem c6_probe_collapses_failure (rc : Int) (ok : Event → Bool)
    (project_id topic sa_id display_name : String) :
    (project_exists rc = true ↔ rc = 0) ∧
      ((ensure_topic rc ok project_id topic).1 = [] ↔ rc = 0) ∧
      (rc = 0 → ensure_topic rc ok project_id topic = ([], none)) ∧
      ((ensure_service_account rc ok project_id sa_id display_name).1 = [] ↔ rc = 0) ∧
      (rc = 0 → ensure_service_account rc ok project_id sa_id display_name =
        ([], Except.ok (sa_id ++ "@" ++ project_id ++ ".iam.gserviceaccount.com"))) := by
  refine ⟨?_, ?_, ?_, ?_, ?_⟩ <;> by_cases h : rc = 0 <;>
    simp [project_exists, ensure_topic, ensure_service_account, h]

/-- C6 (witness): the probe contract evaluated at a zero return code. -/
theorem c6_witness :
    (project_exists 0 = true ↔ (0 : Int) = 0) ∧
      ensure_topic 0 (fun _ => true) "p" "t" = ([], none) ∧
      ensure_service_account 0 (fun _ => true) "p" "a" "d" =
        ([], Except.ok ("a" ++ "@" ++ "p" ++ ".iam.gserviceaccount.com")) := by
  have h := c6_probe_collapses_failure 0 (fun _ => true) "p" "t" "a" "d"
  exact ⟨h.1, h.2.2.1 rfl, h.2.2.2.2 rfl⟩

/-- C5: `create_service_account_key` fails before any provider call when
a file already exists at the output path (empty trace, the
refusing-to-overwrite error); when the path does not exist it issues the
key-create call and returns the path; and, assuming the provider call
itself succeeds, the function errors exactly when the path exists. -/
theorem c5_key_refuses_overwrite (ok : Event → Bool)
    (email project_id output_path : String) (pathExists : Bool) :
    (pathExists = true →
      create_service_account_key ok email project_id output_path pathExists =
        ([], Except.error ("Refusing to overwrite existing key: " ++ output_path))) ∧
      (pathExists = false → ok (Event.createKey email output_path) = true →
        create_service_account_key ok email project_id output_path pathExists =
          ([Event.createKey email output_path], Except.ok output_path)) ∧
      (ok (Event.createKey email output_path) = true →
        (exceptIsOk (create_service_account_key ok email project_id output_path pathExists).2 =
            false ↔ pathExists = true)) := by
  refine ⟨?_, ?_, ?_⟩
  · intro h
    simp [create_service_account_key, h]
  · intro h1 h2
    simp [create_service_account_key, h1, h2]
  · intro hok
    cases pathExists with
    | true => simp [create_service_account_key, exceptIsOk]
    | false => simp [create_service_account_key, exceptIsOk, hok]

/-- C5 (witness): the key-export contract at both branch inputs. -/
theorem c5_witness :
    create_service_account_key (fun _ => true) "e" "p" "k.json" true =
        ([], Except.error ("Refusing to overwrite existing key: " ++ "k.json")) ∧
      create_service_account_key (fun _ => true) "e" "p" "k.json" false =
        ([Event.createKey "e" "k.json"], Except.ok "k.json") :=
  ⟨(c5_key_refuses_overwrite (fun _ => true) "e" "p" "k.json" true).1 rfl,
    (c5_key_refuses_overwrite (fun _ => true) "e" "p" "k.json" false).2.1 rfl rfl⟩

/-- C10: with no forced id and a listing of exactly one account that has
neither an `accountId` nor a `name` field, `select_billing_account`
returns `None` without consuming any operator input, whatever the
account's `open` flag and display name. -/
theorem c10_single_account_without_id (b : Bool) (d : String) (inputs : List String) :
    select_billing_account none (some [⟨none, none, b, d⟩]) inputs = some none := by
  cases b <;> rfl

theorem openCandidates_singleton (acc : BillingAccount) :
    openCandidates [acc] = [acc] := by
  unfold openCandidates
  cases h : acc.isOpen <;> simp [List.filter, h]

theorem select_reduces (accounts : List BillingAccount) (inputs : List String) :
    select_billing_account none (some accounts) inputs =
      selectFromAccounts accounts inputs := rfl

theorem select_singleton (acc : BillingAccount) (inputs : List String) :
    select_billing_account none (some [acc]) inputs =
      (if truthyStr (account_id acc) then some (account_id acc) else some none) := by
  rw [select_reduces]
  unfold selectFromAccounts
  rw [if_neg (by simp)]
  rw [openCandidates_singleton]

/-- C4: with no forced id, the billing selector auto-selects the single
listed account's id without consuming operator input; returns `None`
without consuming input when the listing is empty; and with at least two
candidate accounts after the open-filter (with its permissive fallback),
a blank first interactive answer makes it return `None` (billing
skipped). -/
theorem c4_billing_selector (acc : BillingAccount) (accounts : List BillingAccount)
    (inputs rest : List String) (i s : String) :
    (account_id acc = some s → s ≠ "" →
        select_billing_account none (some [acc]) inputs = some (some s)) ∧
      (select_billing_account none (some []) inputs = some none) ∧
      (2 ≤ (openCandidates accounts).length → pyStrip i = "" →
        select_billing_account none (some accounts) (i :: rest) = some none) := by
  refine ⟨?_, ?_, ?_⟩
  · intro hid hs
    rw [select_singleton, hid]
    rw [if_pos (by simp [truthyStr, hs])]
  · rfl
  · intro h2 hi
    rw [select_reduces]
    unfold selectFromAccounts
    have hne : accounts.isEmpty = false := by
      rcases accounts with _ | ⟨a, t⟩
      · rw [show openCandidates [] = [] from rfl] at h2
        simp at h2
      · rfl
    rw [if_neg (by rw [hne]; exact Bool.false_ne_true)]
    rcases hoc : openCandidates accounts with _ | ⟨a, _ | ⟨b, t⟩⟩
    · rw [hoc] at h2
      simp at h2
    · rw [hoc] at h2
      simp at h2
    · show promptLoop (a :: b :: t) (i :: rest) = some none
      unfold promptLoop
      rw [if_pos (by rw [hi]; rfl)]

/-! ### Event-trace predicates for the sequencer -/

theorem andThenT_all {Pr : Event → Bool} (t : List Event × Option String)
    (k : Unit → List Event × Option String) (h1 : t.1.all Pr = true)
    (h2 : (k ()).1.all Pr = true) : (andThenT t k).1.all Pr = true := by
  unfold andThenT
  split
  · exact h1
  · simp only [List.all_append, h1, h2, Bool.and_self]

theorem create_project_all (Pr ok : Event → Bool) (id dn : String)
    (h : ∀ x y, Pr (Event.createProject x y) = true) :
    (create_project ok id dn).1.all Pr = true := by
  simp [create_project, h]

theorem link_billing_all (Pr ok : Event → Bool) (id bid : String)
    (h : ∀ x y, Pr (Event.linkBilling x y) = true) :
    (link_billing ok id bid).1.all Pr = true := by
  unfold link_billing
  split
  · rfl
  · simp [h]

theorem enable_services_all (Pr ok : Event → Bool) (id : String)
    (h : ∀ x y, Pr (Event.enableService x y) = true) :
    ∀ svcs, (enable_services ok id svcs).1.all Pr = true := by
  intro svcs
  induction svcs with
  | nil => rfl
  | cons s rest ih =>
    simp only [enable_services]
    split
    · simp only [List.all_cons, h, Bool.true_and]
      exact ih
    · simp [h]

theorem ensure_topic_all (Pr ok : Event → Bool) (rc : Int) (id t : String)
    (h : ∀ x y, Pr (Event.createTopic x y) = true) :
    (ensure_topic rc ok id t).1.all Pr = true := by
  unfold ensure_topic
  split
  · rfl
  · simp [h]

theorem ensure_service_account_all (Pr ok : Event → Bool) (rc : Int) (id a d : String)
    (h : ∀ x y z, Pr (Event.createServiceAccount x y z) = true) :
    (ensure_service_account rc ok id a d).1.all Pr = true := by
  simp only [ensure_service_account]
  split
  · rfl
  · split <;> simp [h]

theorem grantRolesLoop_all (Pr ok : Event → Bool) (id email : String)
    (h : ∀ x y z, Pr (Event.grantRole x y z) = true) :
    ∀ roles, (grantRolesLoop ok id email roles).1.all Pr = true := by
  intro roles
  induction roles with
  | nil => rfl
  | cons r rest ih =>
    simp only [grantRolesLoop]
    split
    · simp only [List.all_cons, h, Bool.true_and]
      exact ih
    · simp [h]

theorem grant_service_account_roles_all (Pr ok : Event → Bool) (id email : String)
    (h : ∀ x y z, Pr (Event.grantRole x y z) = true) :
    (grant_service_account_roles ok id email).1.all Pr = true :=
  grantRolesLoop_all Pr ok id email h saRoles

theorem create_service_account_key_all (Pr ok : Event → Bool)
    (email pid path : String) (ex : Bool)
    (h : ∀ x y, Pr (Event.createKey x y) = true) :
    (create_service_account_key ok email pid path ex).1.all Pr = true := by
  simp only [create_service_account_key]
  split
  · rfl
  · split <;> simp [h]

theorem setSecretList_all (Pr ok : Event → Bool)
    (h : ∀ x y, Pr (Event.secretSet x y) = true) :
    ∀ secrets, (setSecretList ok secrets).1.all Pr = true := by
  intro secrets
  induction secrets with
  | nil => rfl
  | cons nv rest ih =>
    rcases nv with ⟨n, v⟩
    simp only [setSecretList]
    split
    · simp only [List.all_cons, h, Bool.true_and]
      exact ih
    · simp [h]

theorem setOptionalList_all (Pr ok : Event → Bool)
    (h : ∀ x y, Pr (Event.secretSet x y) = true) :
    ∀ secrets, (setOptionalList ok secrets).1.all Pr = true := by
  intro secrets
  induction secrets with
  | nil => rfl
  | cons nv rest ih =>
    rcases nv with ⟨n, v⟩
    simp only [setOptionalList]
    split
    · exact ih
    · split
      · simp only [List.all_cons, h, Bool.true_and]
        exact ih
      · simp [h]

theorem configure_github_secrets_all (Pr ok : Event → Bool) (gh : Bool)
    (pid region topic : String) (keyContent : Option String)
    (ingest audience issuers : String)
    (h : ∀ x y, Pr (Event.secretSet x y) = true) :
    (configure_github_secrets ok gh pid region topic keyContent
      ingest audience issuers).1.all Pr = true := by
  simp only [configure_github_secrets]
  split
  · rfl
  · split
    · exact setSecretList_all Pr ok h _
    · simp only [List.all_append]
      rw [setSecretList_all Pr ok h, setOptionalList_all Pr ok h]
      rfl

theorem resolveProjectStep_all (Pr : Event → Bool) (args : Args) (env : Env)
    (hcp : ∀ x y, Pr (Event.createProject x y) = true) :
    (resolveProjectStep args env).1.1.all Pr = true := by
  unfold resolveProjectStep
  rcases args.project_id with _ | pid
  · rfl
  · dsimp only
    by_cases h1 : (pid == "") = true
    · rw [if_pos h1]
      rfl
    · rw [if_neg h1]
      by_cases h2 : project_exists env.explicitRc = true
      · rw [if_pos h2]
        rfl
      · rw [if_neg h2]
        exact create_project_all Pr env.callOk _ _ hcp

theorem keyExportStep_dry (args : Args) (env : Env) (sa_email project_id : String)
    (h : args.dry_run = true) :
    keyExportStep args env sa_email project_id = (([], none), none) := by
  unfold keyExportStep
  rw [if_pos h]

theorem keyExportStep_all (Pr : Event → Bool) (args : Args) (env : Env)
    (sa_email project_id : String)
    (hkey : args.dry_run = false → ∀ x y, Pr (Event.createKey x y) = true) :
    (keyExportStep args env sa_email project_id).1.1.all Pr = true := by
  by_cases h : args.dry_run = true
  · rw [keyExportStep_dry args env sa_email project_id h]
    rfl
  · unfold keyExportStep
    rw [if_neg h]
    rw [Bool.not_eq_true] at h
    rcases hc : create_service_account_key env.callOk sa_email project_id
        (resolveKeyPath args) env.keyExists with ⟨es, res⟩
    have hall := create_service_account_key_all Pr env.callOk sa_email project_id
      (resolveKeyPath args) env.keyExists (hkey h)
    rw [hc] at hall
    rcases res with m | p
    · exact hall
    · exact hall

/-- Every event in a `mainRun` trace satisfies `Pr`, provided `Pr` holds
on every constructor the run can emit: key-export events need only be
covered when the run is not a dry run, and secret uploads only when the
configure-github flag is set. -/
theorem mainRun_all (Pr : Event → Bool) (args : Args) (env : Env)
    (hcp : ∀ x y, Pr (Event.createProject x y) = true)
    (hlb : ∀ x y, Pr (Event.linkBilling x y) = true)
    (hes : ∀ x y, Pr (Event.enableService x y) = true)
    (hct : ∀ x y, Pr (Event.createTopic x y) = true)
    (hcs : ∀ x y z, Pr (Event.createServiceAccount x y z) = true)
    (hgr : ∀ x y z, Pr (Event.grantRole x y z) = true)
    (hkey : args.dry_run = false → ∀ x y, Pr (Event.createKey x y) = true)
    (hsec : args.configure_github = true → ∀ x y, Pr (Event.secretSet x y) = true) :
    (mainRun args env).1.all Pr = true := by
  simp only [mainRun]
  apply andThenT_all
  · exact resolveProjectStep_all Pr args env hcp
  · rcases select_billing_account args.billing_account env.billingListing
        env.billingInputs with _ | billing_id
    · rfl
    · apply andThenT_all
      · by_cases hb : truthyStr billing_id = true
        · rw [if_pos hb]
          exact link_billing_all Pr env.callOk _ _ hlb
        · rw [if_neg hb]
          rfl
      · apply andThenT_all
        · by_cases hre : project_exists env.recheckRc = true
          · rw [if_pos hre]
            rfl
          · rw [if_neg hre]
            exact create_project_all Pr env.callOk _ _ hcp
        · apply andThenT_all
          · exact enable_services_all Pr env.callOk _ hes _
          · apply andThenT_all
            · exact ensure_topic_all Pr env.callOk _ _ _ hct
            · rcases hsa : ensure_service_account env.saRc env.callOk
                  (resolveProjectStep args env).2 args.service_account_id
                  args.service_account_name with ⟨es, res⟩
              have hsall := ensure_service_account_all Pr env.callOk env.saRc
                (resolveProjectStep args env).2 args.service_account_id
                args.service_account_name hcs
              rw [hsa] at hsall
              rcases res with msg | sa_email
              · exact hsall
              · apply andThenT_all
                · exact hsall
                · apply andThenT_all
                  · exact grant_service_account_roles_all Pr env.callOk _ _ hgr
                  · apply andThenT_all
                    · exact keyExportStep_all Pr args env _ _ hkey
                    · by_cases hconf : args.configure_github = true
                      · rw [if_pos hconf]
                        exact configure_github_secrets_all Pr env.callOk _ _ _ _ _ _ _ _
                          (hsec hconf)
                      · rw [if_neg hconf]
                        rfl

theorem andThenT_none_parts {t : List Event × Option String}
    {k : Unit → List Event × Option String} (h : (andThenT t k).2 = none) :
    (andThenT t k).1 = t.1 ++ (k ()).1 ∧ t.2 = none ∧ (k ()).2 = none := by
  unfold andThenT at h ⊢
  rcases ht : t.2 with _ | err
  · rw [ht] at h
    exact ⟨rfl, rfl, h⟩
  · rw [ht] at h
    exact absurd h (by simp)

theorem grantRolesLoop_none (ok : Event → Bool) (pid email : String) :
    ∀ roles, (grantRolesLoop ok pid email roles).2 = none →
      ∀ r ∈ roles,
        Event.grantRole pid ("serviceAccount:" ++ email) r ∈
          (grantRolesLoop ok pid email roles).1 := by
  intro roles
  induction roles with
  | nil => intro _ r hr; cases hr
  | cons q rest ih =>
    intro h r hr
    simp only [grantRolesLoop] at h ⊢
    by_cases hq : ok (Event.grantRole pid ("serviceAccount:" ++ email) q) = true
    · rw [if_pos hq] at h ⊢
      rcases List.mem_cons.mp hr with rfl | hr
      · exact List.mem_cons_self _ _
      · exact List.mem_cons_of_mem _ (ih h r hr)
    · rw [if_neg hq] at h
      exact absurd h (by simp)

theorem ensure_service_account_email {rc : Int} {ok : Event → Bool}
    {pid a d e : String} {es : List Event}
    (h : ensure_service_account rc ok pid a d = (es, Except.ok e)) :
    e = a ++ "@" ++ pid ++ ".iam.gserviceaccount.com" := by
  simp only [ensure_service_account] at h
  split at h
  · exact (Except.ok.inj (congrArg Prod.snd h)).symm
  · split at h
    · exact (Except.ok.inj (congrArg Prod.snd h)).symm
    · exact absurd (congrArg Prod.snd h) (by simp)

/-- If a `mainRun` completes without error, all four role-grant calls
for the resolved project and the deterministic service-account email are
in its trace: the role-granting step is reached and fully executed. -/
theorem mainRun_success_grants (args : Args) (env : Env)
    (h : (mainRun args env).2 = none) :
    ∀ r ∈ saRoles,
      Event.grantRole (resolveProjectStep args env).2
        ("serviceAccount:" ++ (args.service_account_id ++ "@" ++
          (resolveProjectStep args env).2 ++ ".iam.gserviceaccount.com")) r ∈
        (mainRun args env).1 := by
  simp only [mainRun] at h ⊢
  intro r hr
  obtain ⟨he1, _, hk1⟩ := andThenT_none_parts h
  rw [he1]
  apply List.mem_append_right
  revert hk1
  rcases select_billing_account args.billing_account env.billingListing
      env.billingInputs with _ | billing_id
  · intro hk1
    exact absurd hk1 (by simp)
  · intro hk1
    obtain ⟨he2, _, hk2⟩ := andThenT_none_parts hk1
    rw [he2]
    apply List.mem_append_right
    obtain ⟨he3, _, hk3⟩ := andThenT_none_parts hk2
    rw [he3]
    apply List.mem_append_right
    obtain ⟨he4, _, hk4⟩ := andThenT_none_parts hk3
    rw [he4]
    apply List.mem_append_right
    obtain ⟨he5, _, hk5⟩ := andThenT_none_parts hk4
    rw [he5]
    apply List.mem_append_right
    revert hk5
    rcases hsa : ensure_service_account env.saRc env.callOk
        (resolveProjectStep args env).2 args.service_account_id
        args.service_account_name with ⟨es, res⟩
    rcases res with msg | sa_email
    · intro hk5
      exact absurd hk5 (by simp)
    · intro hk5
      obtain ⟨he6, _, hk6⟩ := andThenT_none_parts hk5
      rw [he6]
      apply List.mem_append_right
      obtain ⟨he7, hg7, _⟩ := andThenT_none_parts hk6
      rw [he7]
      apply List.mem_append_left
      have hemail := ensure_service_account_email hsa
      rw [← hemail]
      exact grantRolesLoop_none env.callOk _ sa_email saRoles hg7 r hr

/-- C1 (counterexample): the claim that under dry-run both key export
and secret publishing are skipped for every configuration is false:
with `--dry-run` and `--configure-github` both set, the run uploads
secrets — the two flags are independent in `main`. -/
theorem c1_counterexample :
    (⟨some "p", none, "us-central1", "action-dispersal", "oak-disperser-ci",
        "Oak Disperser CI", some "B", none, true, true⟩ : Args).dry_run = true ∧
      Event.secretSet "GCP_PROJECT" "p" ∈
        (mainRun
          ⟨some "p", none, "us-central1", "action-dispersal", "oak-disperser-ci",
            "Oak Disperser CI", some "B", none, true, true⟩
          ⟨"repo", [1], 0, 0, none, [], 1, 1, false, "KEY", true, "", "", "",
            fun _ => true⟩).1 := by
  decide

/-- C1 (amended): under dry-run the sequencer never issues a key-export
call (no key file is produced in any configuration), and when a run
completes without error all four role-grant calls are in its trace (the
steps through role granting execute); secret publishing, however, is
governed solely by the configure-github flag — it is skipped exactly
when that flag is unset, regardless of dry-run. -/
theorem c1_dry_run_skips (args : Args) (env : Env) (hdry : args.dry_run = true) :
    (mainRun args env).1.all (fun e => !e.isCreateKey) = true ∧
      (args.configure_github = false →
        (mainRun args env).1.all (fun e => !e.isSecretSet) = true) ∧
      ((mainRun args env).2 = none → ∀ r ∈ saRoles,
        Event.grantRole (resolveProjectStep args env).2
          ("serviceAccount:" ++ (args.service_account_id ++ "@" ++
            (resolveProjectStep args env).2 ++ ".iam.gserviceaccount.com")) r ∈
          (mainRun args env).1) := by
  refine ⟨?_, ?_, mainRun_success_grants args env⟩
  · exact mainRun_all _ args env (fun _ _ => rfl) (fun _ _ => rfl) (fun _ _ => rfl)
      (fun _ _ => rfl) (fun _ _ _ => rfl) (fun _ _ _ => rfl)
      (fun hf => absurd hdry (by rw [hf]; exact Bool.false_ne_true)) (fun _ _ _ => rfl)
  · intro hconf
    exact mainRun_all _ args env (fun _ _ => rfl) (fun _ _ => rfl) (fun _ _ => rfl)
      (fun _ _ => rfl) (fun _ _ _ => rfl) (fun _ _ _ => rfl)
      (fun _ _ _ => rfl)
      (fun hc => absurd hc (by rw [hconf]; exact Bool.false_ne_true))

/-- C1 (witness): the amended dry-run guarantees evaluated at a concrete
dry-run configuration without the configure-github flag. -/
theorem c1_witness :
    (mainRun
        ⟨some "p", none, "us-central1", "action-dispersal", "oak-disperser-ci",
          "Oak Disperser CI", some "B", none, false, true⟩
        ⟨"repo", [1], 0, 0, none, [], 1, 1, false, "KEY", true, "", "", "",
          fun _ => true⟩).1.all (fun e => !e.isCreateKey) = true ∧
      (mainRun
        ⟨some "p", none, "us-central1", "action-dispersal", "oak-disperser-ci",
          "Oak Disperser CI", some "B", none, false, true⟩
        ⟨"repo", [1], 0, 0, none, [], 1, 1, false, "KEY", true, "", "", "",
          fun _ => true⟩).1.all (fun e => !e.isSecretSet) = true ∧
      Event.grantRole "p" "serviceAccount:oak-disperser-ci@p.iam.gserviceaccount.com"
          "roles/pubsub.admin" ∈
        (mainRun
          ⟨some "p", none, "us-central1", "action-dispersal", "oak-disperser-ci",
            "Oak Disperser CI", some "B", none, false, true⟩
          ⟨"repo", [1], 0, 0, none, [], 1, 1, false, "KEY", true, "", "", "",
            fun _ => true⟩).1 := by
  have h := c1_dry_run_skips
    ⟨some "p", none, "us-central1", "action-dispersal", "oak-disperser-ci",
      "Oak Disperser CI", some "B", none, false, true⟩
    ⟨"repo", [1], 0, 0, none, [], 1, 1, false, "KEY", true, "", "", "",
      fun _ => true⟩ rfl
  exact ⟨h.1, h.2.1 rfl, h.2.2 (by decide) "roles/pubsub.admin" (by decide)⟩

/-- C4 (witness): the three selector behaviours at concrete inputs. -/
theorem c4_witness :
    select_billing_account none (some [⟨some "ABC", none, true, "d"⟩]) ["9"] =
        some (some "ABC") ∧
      select_billing_account none (some []) ["9"] = some none ∧
      select_billing_account none
          (some [⟨some "A", none, true, "d"⟩, ⟨some "B", none, true, "d"⟩])
          [" ", "1"] = some none :=
  ⟨(c4_billing_selector ⟨some "ABC", none, true, "d"⟩ [] ["9"] [] "x" "ABC").1
      (by decide) (by decide),
    (c4_billing_selector ⟨some "ABC", none, true, "d"⟩ [] ["9"] [] "x" "ABC").2.1,
    (c4_billing_selector ⟨some "ABC", none, true, "d"⟩
        [⟨some "A", none, true, "d"⟩, ⟨some "B", none, true, "d"⟩] [] ["1"] " " "x").2.2
      (by decide) (by decide)⟩

end SetupGcp
